import Mathlib

/-!
Verification of the Connector Metrics Aggregation Engine of the
Data_Extractor repository.

The Python sources embedded here (shallowly) are:
* `Data Extractor/tekla_processor.py`   — tabular (CSV) Tekla batch processor;
* `Data Extractor/rhino_processor.py`   — tabular Rhino batch processor;
* `Data Extractor/navisworks_processor.py` — dual-phase Navisworks processor;
* `Data Extractor - Copy/tekla_processor.py` — tree-shaped (JSON) Tekla processor.

Strings are modelled as `List Char`; Python's substring test `pat in s`
is `strIn`; Python's `round(x, 2)` on numbers is modelled as exact
rational rounding to two decimals (`round2`; the binary floating point
representation and banker's tie-breaking of CPython are abstracted away —
no claim depends on behaviour at exact half-of-a-hundredth ties).
Fallible steps (`pd.read_csv` / `json.load` raising) are modelled by
`Option`: a file whose `parsed` field is `none` is one whose read raised.
-/

set_option maxRecDepth 4000

/-- Strings of the embedded program. -/
abbrev Str := List Char

/-- String literal helper: the character list of a Lean string literal. -/
def sl (s : String) : Str := s.data

/-- `isPrefixL pat s` : `pat` is a prefix of `s` (character-wise). -/
def isPrefixL : Str → Str → Bool
  | [], _ => true
  | _ :: _, [] => false
  | a :: as, b :: bs => a = b && isPrefixL as bs

/-- Python's substring containment `pat in hay`. -/
def strIn (pat : Str) : Str → Bool
  | [] => isPrefixL pat []
  | h :: t => isPrefixL pat (h :: t) || strIn pat t

/-- `match_operation` / `find_matching_operation` (all connector modules):
iterate the mapping's keys in definition order and return the first key
that is a substring of the operation name, else `None`. -/
def matchOperation (opName : Str) : List (Str × Str) → Option Str
  | [] => none
  | (k, _) :: rest => if strIn k opName then some k else matchOperation opName rest

/-- Python `dict.get key`: first (unique) entry with that key. -/
def dictGet (k : Str) : List (Str × Str) → Option Str
  | [] => none
  | (k', v) :: rest => if k' = k then some v else dictGet k rest

/-- The classification performed at every use site: match the operation
name against the mapping's keys, then read off the display category
(`operation_map.get(op_key)` / `operation_map[matched_op]`). -/
def classifyOp (opName : Str) (table : List (Str × Str)) : Option Str :=
  match matchOperation opName table with
  | none => none
  | some k => dictGet k table

/-- Python's `round(x, 2)` modelled over exact rationals. -/
def round2 (q : ℚ) : ℚ := ((round (q * 100) : ℤ) : ℚ) / 100

/-- `calculate_elements_per_min` / `calculate_elements_per_minute`:
`round(total_elements / time_minutes, 2)` when `time_minutes > 0`, else `0`. -/
def calcElementsPerMin (totalElements : ℚ) (timeMinutes : ℚ) : ℚ :=
  if timeMinutes > 0 then round2 (totalElements / timeMinutes) else 0

/-- `"; ".join` -/
def joinSemi : List Str → Str
  | [] => []
  | [s] => s
  | s :: rest => s ++ sl "; " ++ joinSemi rest

-- ===== basic lemmas about the classifier =====

theorem matchOperation_mem {op : Str} {t : List (Str × Str)} {k : Str}
    (h : matchOperation op t = some k) : k ∈ t.map Prod.fst := by
  induction t with
  | nil => simp [matchOperation] at h
  | cons p rest ih =>
    obtain ⟨k', v⟩ := p
    by_cases hk : strIn k' op
    · simp [matchOperation, hk] at h
      simp [h]
    · simp [matchOperation, hk] at h
      simpa using Or.inr (ih h)

theorem dictGet_cons_ne {k k' v : Str} {t : List (Str × Str)} (h : k' ≠ k) :
    dictGet k ((k', v) :: t) = dictGet k t := by
  simp [dictGet, h]

theorem round2_nonneg {q : ℚ} (h : 0 ≤ q) : 0 ≤ round2 q := by
  have h1 : (0 : ℤ) ≤ round (q * 100) := by
    rw [round_eq]
    exact Int.floor_nonneg.mpr (by positivity)
  unfold round2
  have h2 : (0 : ℚ) ≤ ((round (q * 100) : ℤ) : ℚ) := by exact_mod_cast h1
  positivity

theorem calcElementsPerMin_nonneg {t m : ℚ} (ht : 0 ≤ t) :
    0 ≤ calcElementsPerMin t m := by
  unfold calcElementsPerMin
  split
  · exact round2_nonneg (by positivity)
  · exact le_refl 0

-- ===== tabular (CSV) record model =====

/-- One CSV row: columns `Operation Name`, `#Events`,
`Operation Time in Milliseconds`. -/
structure Row where
  opName : Str
  events : Nat
  timeMs : Nat
  deriving DecidableEq

/-- One input path handed to a batch processor.  `isCsvFile` models
`f.endswith(".csv") and os.path.isfile(f)`; `parsed` is `some rows` when
`pd.read_csv` succeeds on the file and `none` when it raises; `name` is the
file's basename (model-name extraction from the filename is carried as the
already-extracted `name`, since no claim concerns the filename regex). -/
structure InFile where
  name : Str
  isCsvFile : Bool
  parsed : Option (List Row)
  deriving DecidableEq

/-- Whether the frame has a row whose `Operation Name` equals `name`
(`not df[df['Operation Name'] == name].empty`). -/
def hasOpRow (name : Str) (rows : List Row) : Bool :=
  rows.any fun r => r.opName = name

/-- `df[df['Operation Name'] == name]["Operation Time in Milliseconds"].sum()`. -/
def sumTimes (name : Str) (rows : List Row) : Nat :=
  ((rows.filter fun r => r.opName = name).map Row.timeMs).sum

/-- Total `#Events` of the rows classified into display category `cat`
under `table`.  (The source computes this with a group-by over the matched
key followed by one assignment per key; with the distinct display names of
the shipped tables this equals the per-category sum of events.) -/
def catTotal (table : List (Str × Str)) (cat : Str) (rows : List Row) : Nat :=
  ((rows.filter fun r => classifyOp r.opName table = some cat).map Row.events).sum

-- ===== Tekla CSV processor (Data Extractor/tekla_processor.py) =====

/-- `tekla_create_operation_map` -/
def teklaCreateMap : List (Str × Str) :=
  [ (sl "ExportIFCTeklaAPI", sl "IFC"),
    (sl "CreateMeshGeometry", sl "Mesh"),
    (sl "CreateExchangeElementForPrimitive", sl "Primitives") ]

/-- `tekla_read_operation_map` -/
def teklaReadMap : List (Str × Str) :=
  [ (sl "LoadBrepItemInTekla", sl "IFC"),
    (sl "LoadMeshInTekla", sl "Mesh"),
    (sl "LoadPrimitivesInTekla", sl "Primitives") ]

/-- `tekla_total_time_operation` -/
def teklaTotalTimeOp : Str := sl "TotalTimeToCreateExchange"

/-- `tekla_read_time_operation` -/
def teklaReadTimeOp : Str := sl "TotalExchangeReadTime"

/-- One summary row of the Tekla CSV processor (the general columns; the
phase-specific `create_data_*`/`read_data_*` duplicates of the timing
columns are omitted — they repeat `milliseconds`/`minutes`/`seconds`). -/
structure TeklaSummary where
  dataModel : Str
  mesh : Nat
  ifc : Nat
  primitives : Nat
  totalElements : Nat
  milliseconds : Nat
  minutes : ℚ
  seconds : ℚ
  elementPerMin : ℚ
  deriving DecidableEq

/-- The per-file body of the second pass of `process_tekla_csv_files`
(lines 115–169), given the batch-level flags `show_create_data` /
`show_read_data` (the operation map is the one those flags select). -/
def teklaFileSummary (showCreate showRead : Bool) (name : Str)
    (rows : List Row) : TeklaSummary :=
  let opMap := if showCreate then teklaCreateMap
               else if showRead then teklaReadMap
               else teklaCreateMap
  let mesh := catTotal opMap (sl "Mesh") rows
  let ifc := catTotal opMap (sl "IFC") rows
  let primitives := catTotal opMap (sl "Primitives") rows
  let totalElements := mesh + ifc + primitives
  let timingMs : Nat :=
    if showCreate ∧ hasOpRow teklaTotalTimeOp rows then sumTimes teklaTotalTimeOp rows
    else if showRead ∧ hasOpRow teklaReadTimeOp rows then sumTimes teklaReadTimeOp rows
    else 0
  let minutes := round2 ((timingMs : ℚ) / 60000)
  { dataModel := name
    mesh := mesh
    ifc := ifc
    primitives := primitives
    totalElements := totalElements
    milliseconds := timingMs
    minutes := minutes
    seconds := round2 ((timingMs : ℚ) / 1000)
    elementPerMin := calcElementsPerMin (totalElements : ℚ) minutes }

/-- The messages the Tekla CSV processor emits on its two callback
channels (message text abstracted to one constructor per `log_output` /
`update_status` call site). -/
inductive TMsg
  | startMsg
  | statusProcessing
  | noValidCsv
  | statusNoValid
  | errorChecking (file : Str)
  | usingCreateMap
  | usingReadMap
  | availability (c r : Bool)
  | errorProcessing (file : Str)
  | noMatching
  | statusNoData
  | summaryTable
  | statusComplete
  deriving DecidableEq

/-- `log_output`/`update_status`: forward the message only when the
corresponding callback was supplied. -/
def emitO (present : Bool) (m : TMsg) : List TMsg :=
  if present then [m] else []

/-- First pass of `process_tekla_csv_files` (lines 80–93): scan every
file for the two canonical timing rows, accumulating the two batch-level
flags; a file whose read raises logs an error and contributes nothing. -/
def teklaPass1 (hasOut : Bool) : List InFile → (Bool × Bool) × List TMsg
  | [] => ((false, false), [])
  | f :: rest =>
    let step := teklaPass1 hasOut rest
    match f.parsed with
    | none => (step.1, emitO hasOut (.errorChecking f.name) ++ step.2)
    | some rows =>
      ((hasOpRow teklaTotalTimeOp rows || step.1.1,
        hasOpRow teklaReadTimeOp rows || step.1.2), step.2)

/-- Second pass of `process_tekla_csv_files` (lines 115–172): build one
summary per readable file; a file whose read raises logs an error and is
excluded. -/
def teklaPass2 (hasOut showCreate showRead : Bool) :
    List InFile → List TeklaSummary × List TMsg
  | [] => ([], [])
  | f :: rest =>
    let step := teklaPass2 hasOut showCreate showRead rest
    match f.parsed with
    | none => (step.1, emitO hasOut (.errorProcessing f.name) ++ step.2)
    | some rows =>
      (teklaFileSummary showCreate showRead f.name rows :: step.1, step.2)

/-- `process_tekla_csv_files`, parameterised over the presence of the two
callbacks (`output_callback`, `status_callback`).  Returns the summary
table (`None` modelled as `none`) and the emitted messages. -/
def processTeklaCsvC (hasOut hasStatus : Bool) (filePaths : List InFile) :
    Option (List TeklaSummary) × List TMsg :=
  let l0 := emitO hasOut .startMsg ++ emitO hasStatus .statusProcessing
  let csvFiles := filePaths.filter (·.isCsvFile)
  if csvFiles.isEmpty then
    (none, l0 ++ emitO hasOut .noValidCsv ++ emitO hasStatus .statusNoValid)
  else
    let pass1 := teklaPass1 hasOut csvFiles
    let hasAnyCreate := pass1.1.1
    let hasAnyRead := pass1.1.2
    let showCreate := hasAnyCreate
    let showRead := hasAnyRead && !hasAnyCreate
    let mapMsg :=
      if showCreate then emitO hasOut .usingCreateMap
      else if showRead then emitO hasOut .usingReadMap
      else []
    let availMsg := emitO hasOut (.availability hasAnyCreate hasAnyRead)
    let pass2 := teklaPass2 hasOut showCreate showRead csvFiles
    let logSoFar := l0 ++ pass1.2 ++ mapMsg ++ availMsg ++ pass2.2
    if pass2.1.isEmpty then
      (none, logSoFar ++ emitO hasOut .noMatching ++ emitO hasStatus .statusNoData)
    else
      (some pass2.1, logSoFar ++ emitO hasOut .summaryTable ++ emitO hasStatus .statusComplete)

/-- `process_tekla_csv_files` with both callbacks supplied. -/
def processTeklaCsv (filePaths : List InFile) :
    Option (List TeklaSummary) × List TMsg :=
  processTeklaCsvC true true filePaths

-- ===== characterisation lemmas for the Tekla CSV processor =====

/-- A file contributes a create-phase signal to the first pass iff it
parses and contains the create total-time row. -/
def fileHasCreate (f : InFile) : Bool :=
  hasOpRow teklaTotalTimeOp (f.parsed.getD [])

/-- A file contributes a read-phase signal to the first pass iff it
parses and contains the read total-time row. -/
def fileHasRead (f : InFile) : Bool :=
  hasOpRow teklaReadTimeOp (f.parsed.getD [])

theorem teklaPass1_fst (b : Bool) (fs : List InFile) :
    (teklaPass1 b fs).1 = (fs.any fileHasCreate, fs.any fileHasRead) := by
  induction fs with
  | nil => rfl
  | cons f rest ih =>
    cases hp : f.parsed with
    | none =>
      simp [teklaPass1, hp, ih, fileHasCreate, fileHasRead, hasOpRow]
    | some rows =>
      simp [teklaPass1, hp, ih, fileHasCreate, fileHasRead]

theorem teklaPass2_fst (b sc sr : Bool) (fs : List InFile) :
    (teklaPass2 b sc sr fs).1 =
      (fs.filter (·.parsed.isSome)).map
        (fun f => teklaFileSummary sc sr f.name (f.parsed.getD [])) := by
  induction fs with
  | nil => rfl
  | cons f rest ih =>
    cases hp : f.parsed with
    | none => simp [teklaPass2, hp, ih]
    | some rows => simp [teklaPass2, hp, ih]

theorem teklaPass2_err_mem (sc sr : Bool) {fs : List InFile} {f : InFile}
    (hf : f ∈ fs) (hp : f.parsed = none) :
    TMsg.errorProcessing f.name ∈ (teklaPass2 true sc sr fs).2 := by
  induction fs with
  | nil => cases hf
  | cons g rest ih =>
    rcases List.mem_cons.mp hf with rfl | hmem
    · simp [teklaPass2, hp, emitO]
    · cases hq : g.parsed with
      | none => simp [teklaPass2, hq, emitO]; right; exact ih hmem
      | some rows => simpa [teklaPass2, hq] using ih hmem

/-- The summary table computed by `process_tekla_csv_files`, in closed
form: the two batch-level availability flags are `any`-scans over the
readable files, and every file is summarised under the single map those
flags select. -/
theorem processTeklaCsvC_fst (a b : Bool) (inputs : List InFile) :
    (processTeklaCsvC a b inputs).1 =
      (let fs := inputs.filter (·.isCsvFile)
       let sc := fs.any fileHasCreate
       let sr := fs.any fileHasRead && !sc
       let rows := (fs.filter (·.parsed.isSome)).map
         (fun f => teklaFileSummary sc sr f.name (f.parsed.getD []))
       if rows.isEmpty then none else some rows) := by
  unfold processTeklaCsvC
  by_cases he : (inputs.filter (·.isCsvFile)).isEmpty
  · have hnil : inputs.filter (·.isCsvFile) = [] := List.isEmpty_iff.mp he
    rw [if_pos he]
    rw [hnil]
    rfl
  · rw [if_neg he]
    dsimp only
    rw [teklaPass1_fst, teklaPass2_fst]
    split <;> rfl

-- ===== Claim C1 =====

/-- The claim's reading of the Tekla CSV processor: the phase governing a
file is decided per-file (create table when the file has the create-phase
total-time row, read table when it has only the read-phase one), with
everything else as in the code. -/
def claimC1Prop : Prop := ∀ inputs : List InFile,
  (processTeklaCsv inputs).1 =
    (let csvFiles := inputs.filter (·.isCsvFile)
     let rows := (csvFiles.filter (·.parsed.isSome)).map (fun f =>
       let rs := f.parsed.getD []
       teklaFileSummary (hasOpRow teklaTotalTimeOp rs)
         (!hasOpRow teklaTotalTimeOp rs && hasOpRow teklaReadTimeOp rs) f.name rs)
     if csvFiles.isEmpty then none else if rows.isEmpty then none else some rows)

/-- Batch of two readable CSV files: `cexCreateFile` carries the
create-phase total-time row. -/
def cexCreateFile : InFile :=
  { name := sl "a.csv", isCsvFile := true,
    parsed := some [{ opName := sl "TotalTimeToCreateExchange", events := 0, timeMs := 0 }] }

/-- A file carrying only read-phase records (a read sample of 7 events
and the read total-time row), no create-phase signal. -/
def cexReadFile : InFile :=
  { name := sl "b.csv", isCsvFile := true,
    parsed := some [{ opName := sl "LoadMeshInTekla", events := 7, timeMs := 0 },
                    { opName := sl "TotalExchangeReadTime", events := 0, timeMs := 0 }] }

/-- Claim C1 is false on the code: in the batch
`[cexCreateFile, cexReadFile]` the second file has no create-phase signal,
yet the create table still governs it (its 7 `LoadMeshInTekla` events are
not counted: `Mesh = 0`, where the per-file reading demands `Mesh = 7`). -/
theorem C1_counterexample : ¬ claimC1Prop := by
  intro h
  have h2 := congrArg (fun o => (o.getD []).map TeklaSummary.mesh)
    (h [cexCreateFile, cexReadFile])
  revert h2
  decide

/-- Claim C1 (amended): for tabular (CSV) Tekla input the phase is decided
per **batch**, not per file: if any file of the batch contains the
create-phase total-time row, the create category table governs every file
of the batch (the read table is ignored even for files that carry only
read-phase records); the read table is used — again for all files — only
when no file of the batch has a create-phase signal and some file has a
read-phase one. -/
theorem C1_phase_decided_per_batch (inputs : List InFile) :
    (processTeklaCsv inputs).1 =
      (let fs := inputs.filter (·.isCsvFile)
       let sc := fs.any fileHasCreate
       let sr := fs.any fileHasRead && !sc
       let rows := (fs.filter (·.parsed.isSome)).map
         (fun f => teklaFileSummary sc sr f.name (f.parsed.getD []))
       if rows.isEmpty then none else some rows) :=
  processTeklaCsvC_fst true true inputs

-- ===== Claims C7 / C8 =====

theorem filterSome_length (fs : List InFile) :
    (fs.filter (·.parsed.isSome)).length + fs.countP (fun f => f.parsed.isNone) = fs.length := by
  induction fs with
  | nil => rfl
  | cons f rest ih =>
    cases hp : f.parsed with
    | none =>
      simp only [List.filter_cons, List.countP_cons, hp, Option.isSome_none,
        Option.isNone_none, Bool.false_eq_true, if_false, if_true, List.length_cons]
      omega
    | some rows =>
      simp only [List.filter_cons, List.countP_cons, hp, Option.isSome_some,
        Option.isNone_some, Bool.false_eq_true, if_false, if_true, List.length_cons]
      omega

theorem processTeklaCsv_err_mem {inputs : List InFile} {f : InFile}
    (hf : f ∈ inputs.filter (·.isCsvFile)) (hp : f.parsed = none) :
    TMsg.errorProcessing f.name ∈ (processTeklaCsv inputs).2 := by
  unfold processTeklaCsv processTeklaCsvC
  have hne : ¬ (inputs.filter (·.isCsvFile)).isEmpty := by
    intro h
    rw [List.isEmpty_iff.mp h] at hf
    cases hf
  rw [if_neg hne]
  dsimp only
  have hmem := teklaPass2_err_mem
    ((teklaPass1 true (inputs.filter (·.isCsvFile))).1.1)
    ((teklaPass1 true (inputs.filter (·.isCsvFile))).1.2 &&
      !(teklaPass1 true (inputs.filter (·.isCsvFile))).1.1) hf hp
  split <;> simp [List.mem_append, hmem]


/-- Claim C8: a batch with no matching file, or one whose processing
yields no rows, returns the empty-result sentinel `None` together with a
descriptive message and raises nothing (the embedding is a total
function); files that are not readable `.csv` files are skipped silently —
removing such a file changes neither the result nor a single emitted
message. -/
theorem C8_no_data_sentinel :
    (∀ inputs : List InFile, inputs.filter (·.isCsvFile) = [] →
       (processTeklaCsv inputs).1 = none
       ∧ TMsg.noValidCsv ∈ (processTeklaCsv inputs).2)
    ∧ (∀ inputs : List InFile, (∀ f ∈ inputs.filter (·.isCsvFile), f.parsed = none) →
       (processTeklaCsv inputs).1 = none
       ∧ (TMsg.noValidCsv ∈ (processTeklaCsv inputs).2
          ∨ TMsg.noMatching ∈ (processTeklaCsv inputs).2))
    ∧ ∀ (xs ys : List InFile) (g : InFile), g.isCsvFile = false →
       processTeklaCsv (xs ++ g :: ys) = processTeklaCsv (xs ++ ys) := by
  refine ⟨fun inputs hnil => ?_, fun inputs hall => ?_, fun xs ys g hg => ?_⟩
  · have he : (inputs.filter (·.isCsvFile)).isEmpty := by rw [hnil]; rfl
    unfold processTeklaCsv processTeklaCsvC
    rw [if_pos he]
    exact ⟨rfl, by simp [emitO]⟩
  · have hempty : ((inputs.filter (·.isCsvFile)).filter (·.parsed.isSome)) = [] := by
      rw [List.filter_eq_nil_iff]
      intro f hf
      simp [hall f hf]
    unfold processTeklaCsv processTeklaCsvC
    by_cases he : (inputs.filter (·.isCsvFile)).isEmpty
    · rw [if_pos he]
      exact ⟨rfl, Or.inl (by simp [emitO])⟩
    · rw [if_neg he]
      dsimp only
      rw [teklaPass2_fst, hempty]
      exact ⟨rfl, Or.inr (by simp [emitO])⟩
  · have hfe : (xs ++ g :: ys).filter (·.isCsvFile) = (xs ++ ys).filter (·.isCsvFile) := by
      simp [List.filter_append, List.filter_cons, hg]
    unfold processTeklaCsv processTeklaCsvC
    rw [hfe]

theorem C8_witness :
    (processTeklaCsv []).1 = none ∧ TMsg.noValidCsv ∈ (processTeklaCsv []).2 :=
  C8_no_data_sentinel.1 [] rfl

-- ===== Rhino CSV processor (Data Extractor/rhino_processor.py) =====

/-- `CREATE_OPERATIONS` of the Rhino module (legacy keys included). -/
def rhinoCreateMap : List (Str × Str) :=
  [ (sl "CreateBrepElement:CreateBrepGeometry", sl "Brep"),
    (sl "CreateMeshElement:CreateMeshGeometry", sl "Mesh"),
    (sl "CreatePrimitiveElement:CreatePrimitiveGeometry", sl "Primitive"),
    (sl "CreateMeshGeometry", sl "Mesh"),
    (sl "CreateBrepGeometry", sl "Brep") ]

/-- `READ_OPERATIONS` of the Rhino module. -/
def rhinoReadMap : List (Str × Str) :=
  [ (sl "LoadMeshInRhino", sl "Mesh"),
    (sl "LoadBrepInRhino", sl "Brep") ]

/-- `CREATE_TIME_OPERATION` of the Rhino module. -/
def rhinoCreateTimeOp : Str := sl "UpdateExchangeAsync:TotalCreationTime"

/-- `READ_TIME_OPERATION` of the Rhino module. -/
def rhinoReadTimeOp : Str := sl "TotalExchangeReadTime"

/-- One summary row of the Rhino processor. -/
structure RhinoSummary where
  dataModel : Str
  mesh : Nat
  brep : Nat
  primitive : Nat
  totalElements : Nat
  milliseconds : Nat
  minutes : ℚ
  elementPerMin : ℚ
  deriving DecidableEq

/-- The accumulation part of the Rhino `process_single_file` once the
phase's map and time operation are fixed (lines 72–91). -/
def rhinoBuild (name : Str) (opMap : List (Str × Str)) (timeOp : Str)
    (rows : List Row) : RhinoSummary :=
  let mesh := catTotal opMap (sl "Mesh") rows
  let brep := catTotal opMap (sl "Brep") rows
  let primitive := catTotal opMap (sl "Primitive") rows
  let totalElements := mesh + brep + primitive
  if hasOpRow timeOp rows then
    let ms := sumTimes timeOp rows
    let minutes := round2 ((ms : ℚ) / 60000)
    { dataModel := name, mesh := mesh, brep := brep, primitive := primitive,
      totalElements := totalElements, milliseconds := ms, minutes := minutes,
      elementPerMin := calcElementsPerMin (totalElements : ℚ) minutes }
  else
    { dataModel := name, mesh := mesh, brep := brep, primitive := primitive,
      totalElements := totalElements, milliseconds := 0, minutes := 0,
      elementPerMin := 0 }

/-- Rhino `process_single_file` on a parsed frame: phase is decided
per-file — create timing row takes precedence, else the read timing row,
else the all-zero summary is returned. -/
def rhinoSingle (name : Str) (rows : List Row) : RhinoSummary :=
  if hasOpRow rhinoCreateTimeOp rows then
    rhinoBuild name rhinoCreateMap rhinoCreateTimeOp rows
  else if hasOpRow rhinoReadTimeOp rows then
    rhinoBuild name rhinoReadMap rhinoReadTimeOp rows
  else
    { dataModel := name, mesh := 0, brep := 0, primitive := 0,
      totalElements := 0, milliseconds := 0, minutes := 0, elementPerMin := 0 }

/-- Messages of the Rhino batch run.  `consoleError` is the `print` in the
`except` arm of `process_single_file` (it goes to the console, not to a
callback, so it is emitted unconditionally). -/
inductive RMsg
  | noValidCsv
  | processingFile (f : Str)
  | consoleError (f : Str)
  | noValidData
  | statusComplete
  | successCount
  deriving DecidableEq

def emitR (present : Bool) (m : RMsg) : List RMsg :=
  if present then [m] else []

/-- The per-file loop of `process_rhino_files` (lines 119–126). -/
def rhinoPass (hasOut : Bool) : List InFile → List RhinoSummary × List RMsg
  | [] => ([], [])
  | f :: rest =>
    let step := rhinoPass hasOut rest
    match f.parsed with
    | none =>
      (step.1, emitR hasOut (.processingFile f.name) ++ [.consoleError f.name] ++ step.2)
    | some rows =>
      (rhinoSingle f.name rows :: step.1, emitR hasOut (.processingFile f.name) ++ step.2)

/-- `process_rhino_files`, parameterised over the presence of the two
callbacks. -/
def processRhinoC (hasOut hasStatus : Bool) (filePaths : List InFile) :
    Option (List RhinoSummary) × List RMsg :=
  let csvFiles := filePaths.filter (·.isCsvFile)
  if csvFiles.isEmpty then (none, emitR hasOut .noValidCsv)
  else
    let p := rhinoPass hasOut csvFiles
    if p.1.isEmpty then (none, p.2 ++ emitR hasOut .noValidData)
    else (some p.1, p.2 ++ emitR hasStatus .statusComplete ++ emitR hasOut .successCount)

theorem rhinoPass_fst (b : Bool) (fs : List InFile) :
    (rhinoPass b fs).1 =
      (fs.filter (·.parsed.isSome)).map
        (fun f => rhinoSingle f.name (f.parsed.getD [])) := by
  induction fs with
  | nil => rfl
  | cons f rest ih =>
    cases hp : f.parsed with
    | none => simp [rhinoPass, hp, ih]
    | some rows => simp [rhinoPass, hp, ih]

/-- The summary table computed by `process_rhino_files`, in closed form. -/
theorem processRhinoC_fst (a b : Bool) (inputs : List InFile) :
    (processRhinoC a b inputs).1 =
      (let fs := inputs.filter (·.isCsvFile)
       let rows := (fs.filter (·.parsed.isSome)).map
         (fun f => rhinoSingle f.name (f.parsed.getD []))
       if fs.isEmpty then none else if rows.isEmpty then none else some rows) := by
  unfold processRhinoC
  by_cases he : (inputs.filter (·.isCsvFile)).isEmpty
  · rw [if_pos he]
    dsimp only
    rw [if_pos he]
  · rw [if_neg he]
    dsimp only
    rw [if_neg he, rhinoPass_fst]
    split <;> rfl

/-- Claim C7: in a batch of `N` valid files of which exactly one fails
extraction, the run completes with `N - 1` summary rows (both for the
Tekla CSV processor and for the Rhino one), the batch result is
non-`None` whenever at least one file succeeds (`N ≥ 2`), and the
failing file is reported on the Tekla processor's output callback
channel. -/
theorem C7_single_failure_isolated (inputs : List InFile)
    (h1 : (inputs.filter (·.isCsvFile)).countP (fun f => f.parsed.isNone) = 1) :
    ((processTeklaCsv inputs).1.getD []).length
        = (inputs.filter (·.isCsvFile)).length - 1
    ∧ (2 ≤ (inputs.filter (·.isCsvFile)).length → (processTeklaCsv inputs).1 ≠ none)
    ∧ (∀ f ∈ inputs.filter (·.isCsvFile), f.parsed = none →
        TMsg.errorProcessing f.name ∈ (processTeklaCsv inputs).2)
    ∧ ((processRhinoC true true inputs).1.getD []).length
        = (inputs.filter (·.isCsvFile)).length - 1 := by
  have hlen : ((inputs.filter (·.isCsvFile)).filter (·.parsed.isSome)).length
      = (inputs.filter (·.isCsvFile)).length - 1 := by
    have h2 := filterSome_length (inputs.filter (·.isCsvFile))
    omega
  have hchar := processTeklaCsvC_fst true true inputs
  dsimp only at hchar
  refine ⟨?_, ?_, fun f hf hp => processTeklaCsv_err_mem hf hp, ?_⟩
  · rw [show processTeklaCsv inputs = processTeklaCsvC true true inputs from rfl]
    by_cases hrows : (((inputs.filter (·.isCsvFile)).filter (·.parsed.isSome)).map
        (fun f => teklaFileSummary ((inputs.filter (·.isCsvFile)).any fileHasCreate)
          ((inputs.filter (·.isCsvFile)).any fileHasRead &&
            !(inputs.filter (·.isCsvFile)).any fileHasCreate)
          f.name (f.parsed.getD []))).isEmpty
    · rw [hchar, if_pos hrows]
      have h0 : (((inputs.filter (·.isCsvFile)).filter (·.parsed.isSome)).map
          (fun f => teklaFileSummary ((inputs.filter (·.isCsvFile)).any fileHasCreate)
            ((inputs.filter (·.isCsvFile)).any fileHasRead &&
              !(inputs.filter (·.isCsvFile)).any fileHasCreate)
            f.name (f.parsed.getD []))).length = 0 := by
        rw [List.isEmpty_iff.mp hrows]
        rfl
      rw [List.length_map] at h0
      simp only [Option.getD_none, List.length_nil]
      omega
    · rw [hchar, if_neg hrows]
      simp only [Option.getD_some, List.length_map]
      exact hlen
  · intro hN hnone
    rw [show processTeklaCsv inputs = processTeklaCsvC true true inputs from rfl, hchar] at hnone
    by_cases hrows : (((inputs.filter (·.isCsvFile)).filter (·.parsed.isSome)).map
        (fun f => teklaFileSummary ((inputs.filter (·.isCsvFile)).any fileHasCreate)
          ((inputs.filter (·.isCsvFile)).any fileHasRead &&
            !(inputs.filter (·.isCsvFile)).any fileHasCreate)
          f.name (f.parsed.getD []))).isEmpty
    · have h0 : (((inputs.filter (·.isCsvFile)).filter (·.parsed.isSome)).map
          (fun f => teklaFileSummary ((inputs.filter (·.isCsvFile)).any fileHasCreate)
            ((inputs.filter (·.isCsvFile)).any fileHasRead &&
              !(inputs.filter (·.isCsvFile)).any fileHasCreate)
            f.name (f.parsed.getD []))).length = 0 := by
        rw [List.isEmpty_iff.mp hrows]
        rfl
      rw [List.length_map] at h0
      omega
    · rw [if_neg hrows] at hnone
      cases hnone
  · rw [processRhinoC_fst true true inputs]
    dsimp only
    have hne : ¬ (inputs.filter (·.isCsvFile)).isEmpty := by
      intro hemp
      rw [List.isEmpty_iff.mp hemp] at h1
      simp [List.countP_nil] at h1
    rw [if_neg hne]
    by_cases hrows : (((inputs.filter (·.isCsvFile)).filter (·.parsed.isSome)).map
        (fun f => rhinoSingle f.name (f.parsed.getD []))).isEmpty
    · rw [if_pos hrows]
      have h0 : (((inputs.filter (·.isCsvFile)).filter (·.parsed.isSome)).map
          (fun f => rhinoSingle f.name (f.parsed.getD []))).length = 0 := by
        rw [List.isEmpty_iff.mp hrows]
        rfl
      rw [List.length_map] at h0
      simp only [Option.getD_none, List.length_nil]
      omega
    · rw [if_neg hrows]
      simp only [Option.getD_some, List.length_map]
      exact hlen

/-- Concrete batch for C7: one readable file, one whose read raises. -/
def w7Good : InFile :=
  { name := sl "metrics_good_Demo.csv", isCsvFile := true,
    parsed := some [{ opName := sl "ExportIFCTeklaAPI", events := 12, timeMs := 0 },
                    { opName := sl "TotalTimeToCreateExchange", events := 0, timeMs := 30000 }] }

/-- Concrete malformed file for C7: `pd.read_csv` raises on it. -/
def w7Bad : InFile :=
  { name := sl "metrics_bad_Demo.csv", isCsvFile := true, parsed := none }

theorem C7_witness :
    ((processTeklaCsv [w7Good, w7Bad]).1.getD []).length
        = ([w7Good, w7Bad].filter (·.isCsvFile)).length - 1
    ∧ (2 ≤ ([w7Good, w7Bad].filter (·.isCsvFile)).length →
        (processTeklaCsv [w7Good, w7Bad]).1 ≠ none)
    ∧ (∀ f ∈ [w7Good, w7Bad].filter (·.isCsvFile), f.parsed = none →
        TMsg.errorProcessing f.name ∈ (processTeklaCsv [w7Good, w7Bad]).2)
    ∧ ((processRhinoC true true [w7Good, w7Bad]).1.getD []).length
        = ([w7Good, w7Bad].filter (·.isCsvFile)).length - 1 :=
  C7_single_failure_isolated [w7Good, w7Bad] (by decide)


-- ===== Claim C9 =====

/-- Claim C9: the computed summary tables of the Tekla CSV batch run and
of the Rhino batch run are identical whether the progress/status callback
hooks are supplied or omitted — only the emitted messages change. -/
theorem C9_callbacks_do_not_affect_result (inputs : List InFile)
    (a b a' b' : Bool) :
    (processTeklaCsvC a b inputs).1 = (processTeklaCsvC a' b' inputs).1
    ∧ (processRhinoC a b inputs).1 = (processRhinoC a' b' inputs).1 := by
  constructor
  · rw [processTeklaCsvC_fst a b, processTeklaCsvC_fst a' b']
  · rw [processRhinoC_fst a b, processRhinoC_fst a' b']

-- ===== Navisworks processor (Data Extractor/navisworks_processor.py) =====

/-- `CREATE_OPERATIONS` of the Navisworks module (export counters). -/
def navCreateMap : List (Str × Str) :=
  [ (sl "ExportMeshCount", sl "Mesh_Export"),
    (sl "ExportLineCount", sl "Line_Export"),
    (sl "ExportPointCount", sl "Point_Export") ]

/-- `READ_OPERATIONS` of the Navisworks module (read counters). -/
def navReadMap : List (Str × Str) :=
  [ (sl "ReadBrepCount", sl "Brep_Read"),
    (sl "ReadMeshCount", sl "Mesh_Read"),
    (sl "ReadPrimitiveCount", sl "Primitive_Read") ]

/-- `CREATE_TIME_OPERATION` of the Navisworks module. -/
def navCreateTimeOp : Str := sl "UpdateExchangeAsync:TotalTimeToCreateExchange"

/-- `READ_TIME_OPERATION` of the Navisworks module. -/
def navReadTimeOp : Str := sl "TotalExchangeReadTime"

/-- Export-phase summary row of the Navisworks processor. -/
structure NavExport where
  dataModel : Str
  meshExport : Nat
  lineExport : Nat
  pointExport : Nat
  totalElements : Nat
  milliseconds : Nat
  minutes : ℚ
  elementPerMin : ℚ
  deriving DecidableEq

/-- Read-phase summary row of the Navisworks processor. -/
structure NavRead where
  dataModel : Str
  brepRead : Nat
  meshRead : Nat
  primitiveRead : Nat
  totalElements : Nat
  milliseconds : Nat
  minutes : ℚ
  elementPerMin : ℚ
  deriving DecidableEq

/-- Navisworks `process_single_file` on a parsed frame: export and read
counters are accumulated independently for every row, each phase's timing
is taken from its own canonical timing row, and a phase's summary is
returned only when at least one of that phase's counters is non-zero. -/
def navSingle (name : Str) (rows : List Row) : Option NavExport × Option NavRead :=
  let meshE := catTotal navCreateMap (sl "Mesh_Export") rows
  let lineE := catTotal navCreateMap (sl "Line_Export") rows
  let pointE := catTotal navCreateMap (sl "Point_Export") rows
  let brepR := catTotal navReadMap (sl "Brep_Read") rows
  let meshR := catTotal navReadMap (sl "Mesh_Read") rows
  let primR := catTotal navReadMap (sl "Primitive_Read") rows
  let exportTotal := meshE + lineE + pointE
  let readTotal := brepR + meshR + primR
  let exportSummary : NavExport :=
    if hasOpRow navCreateTimeOp rows then
      let ms := sumTimes navCreateTimeOp rows
      let minutes := round2 ((ms : ℚ) / 60000)
      { dataModel := name, meshExport := meshE, lineExport := lineE,
        pointExport := pointE, totalElements := exportTotal, milliseconds := ms,
        minutes := minutes,
        elementPerMin := calcElementsPerMin (exportTotal : ℚ) minutes }
    else
      { dataModel := name, meshExport := meshE, lineExport := lineE,
        pointExport := pointE, totalElements := exportTotal, milliseconds := 0,
        minutes := 0, elementPerMin := 0 }
  let readSummary : NavRead :=
    if hasOpRow navReadTimeOp rows then
      let ms := sumTimes navReadTimeOp rows
      let minutes := round2 ((ms : ℚ) / 60000)
      { dataModel := name, brepRead := brepR, meshRead := meshR,
        primitiveRead := primR, totalElements := readTotal, milliseconds := ms,
        minutes := minutes,
        elementPerMin := calcElementsPerMin (readTotal : ℚ) minutes }
    else
      { dataModel := name, brepRead := brepR, meshRead := meshR,
        primitiveRead := primR, totalElements := readTotal, milliseconds := 0,
        minutes := 0, elementPerMin := 0 }
  ( if 0 < meshE ∨ 0 < lineE ∨ 0 < pointE then some exportSummary else none,
    if 0 < brepR ∨ 0 < meshR ∨ 0 < primR then some readSummary else none )

-- ===== Claim C6 =====

theorem round2_zero : round2 0 = 0 := by
  simp [round2]

/-- The common shape of every summary row's derived-rate fields: once
`minutes` is the rounded `ms / 60000` and the rate comes from
`calculate_elements_per_min(total, minutes)`, the rate is `0` exactly at
`minutes = 0`, is otherwise `round(total / minutes, 2)` computed from the
rounded minutes value, and is never negative. -/
theorem rate_triple {minutes epm : ℚ} {ms total : Nat}
    (hm : minutes = round2 ((ms : ℚ) / 60000))
    (he : epm = calcElementsPerMin (total : ℚ) minutes) :
    minutes = round2 ((ms : ℚ) / 60000)
    ∧ epm = (if minutes = 0 then 0 else round2 ((total : ℚ) / minutes))
    ∧ 0 ≤ epm := by
  have hmn : 0 ≤ minutes := hm ▸ round2_nonneg (by positivity)
  refine ⟨hm, ?_, he ▸ calcElementsPerMin_nonneg (by positivity)⟩
  rw [he]
  by_cases h0 : minutes = 0
  · simp [calcElementsPerMin, h0]
  · have hpos : 0 < minutes := lt_of_le_of_ne hmn (Ne.symm h0)
    simp [calcElementsPerMin, hpos, h0]

theorem rhinoBuild_rate (name : Str) (opMap : List (Str × Str)) (timeOp : Str)
    (rows : List Row) :
    (rhinoBuild name opMap timeOp rows).minutes =
        round2 (((rhinoBuild name opMap timeOp rows).milliseconds : ℚ) / 60000)
    ∧ (rhinoBuild name opMap timeOp rows).elementPerMin =
        (if (rhinoBuild name opMap timeOp rows).minutes = 0 then 0
         else round2 (((rhinoBuild name opMap timeOp rows).totalElements : ℚ) /
           (rhinoBuild name opMap timeOp rows).minutes))
    ∧ 0 ≤ (rhinoBuild name opMap timeOp rows).elementPerMin := by
  by_cases ht : hasOpRow timeOp rows
  · unfold rhinoBuild
    rw [if_pos ht]
    exact rate_triple rfl rfl
  · unfold rhinoBuild
    rw [if_neg ht]
    exact rate_triple (by simp [round2_zero]) (by simp [calcElementsPerMin])

/-- Claim C6: in every summary row emitted by the Tekla CSV, Rhino and
Navisworks processors, `minutes` is the rounded `milliseconds / 60000`,
`element_per_min` is `0` whenever `minutes = 0` and otherwise equals
`round(total_elements / minutes, 2)` computed from the rounded minutes
value (not from raw milliseconds), and the rate is never negative. -/
theorem C6_rate_from_rounded_minutes :
    (∀ (showCreate showRead : Bool) (name : Str) (rows : List Row),
       (teklaFileSummary showCreate showRead name rows).minutes =
           round2 (((teklaFileSummary showCreate showRead name rows).milliseconds : ℚ) / 60000)
       ∧ (teklaFileSummary showCreate showRead name rows).elementPerMin =
           (if (teklaFileSummary showCreate showRead name rows).minutes = 0 then 0
            else round2 (((teklaFileSummary showCreate showRead name rows).totalElements : ℚ) /
              (teklaFileSummary showCreate showRead name rows).minutes))
       ∧ 0 ≤ (teklaFileSummary showCreate showRead name rows).elementPerMin)
    ∧ (∀ (name : Str) (rows : List Row),
       (rhinoSingle name rows).minutes =
           round2 (((rhinoSingle name rows).milliseconds : ℚ) / 60000)
       ∧ (rhinoSingle name rows).elementPerMin =
           (if (rhinoSingle name rows).minutes = 0 then 0
            else round2 (((rhinoSingle name rows).totalElements : ℚ) /
              (rhinoSingle name rows).minutes))
       ∧ 0 ≤ (rhinoSingle name rows).elementPerMin)
    ∧ (∀ (name : Str) (rows : List Row) (e : NavExport),
       (navSingle name rows).1 = some e →
       e.minutes = round2 ((e.milliseconds : ℚ) / 60000)
       ∧ e.elementPerMin =
           (if e.minutes = 0 then 0
            else round2 ((e.totalElements : ℚ) / e.minutes))
       ∧ 0 ≤ e.elementPerMin)
    ∧ (∀ (name : Str) (rows : List Row) (r : NavRead),
       (navSingle name rows).2 = some r →
       r.minutes = round2 ((r.milliseconds : ℚ) / 60000)
       ∧ r.elementPerMin =
           (if r.minutes = 0 then 0
            else round2 ((r.totalElements : ℚ) / r.minutes))
       ∧ 0 ≤ r.elementPerMin) := by
  refine ⟨fun showCreate showRead name rows => rate_triple rfl rfl,
          fun name rows => ?_, fun name rows e he => ?_, fun name rows r hr => ?_⟩
  · unfold rhinoSingle
    by_cases h1 : hasOpRow rhinoCreateTimeOp rows
    · rw [if_pos h1]
      exact rhinoBuild_rate name rhinoCreateMap rhinoCreateTimeOp rows
    · rw [if_neg h1]
      by_cases h2 : hasOpRow rhinoReadTimeOp rows
      · rw [if_pos h2]
        exact rhinoBuild_rate name rhinoReadMap rhinoReadTimeOp rows
      · rw [if_neg h2]
        exact rate_triple (by simp [round2_zero]) (by simp [calcElementsPerMin])
  · unfold navSingle at he
    dsimp only at he
    by_cases hc : 0 < catTotal navCreateMap (sl "Mesh_Export") rows
        ∨ 0 < catTotal navCreateMap (sl "Line_Export") rows
        ∨ 0 < catTotal navCreateMap (sl "Point_Export") rows
    · rw [if_pos hc] at he
      have he2 := (Option.some_inj.mp he).symm
      subst he2
      by_cases ht : hasOpRow navCreateTimeOp rows
      · rw [if_pos ht]
        exact rate_triple rfl rfl
      · rw [if_neg ht]
        exact rate_triple (by simp [round2_zero]) (by simp [calcElementsPerMin])
    · rw [if_neg hc] at he
      cases he
  · unfold navSingle at hr
    dsimp only at hr
    by_cases hc : 0 < catTotal navReadMap (sl "Brep_Read") rows
        ∨ 0 < catTotal navReadMap (sl "Mesh_Read") rows
        ∨ 0 < catTotal navReadMap (sl "Primitive_Read") rows
    · rw [if_pos hc] at hr
      have hr2 := (Option.some_inj.mp hr).symm
      subst hr2
      by_cases ht : hasOpRow navReadTimeOp rows
      · rw [if_pos ht]
        exact rate_triple rfl rfl
      · rw [if_neg ht]
        exact rate_triple (by simp [round2_zero]) (by simp [calcElementsPerMin])
    · rw [if_neg hc] at hr
      cases hr

/-- A Navisworks frame with a positive export counter and no create
timing row, and the export row the code returns for it. -/
def w6Rows : List Row := [{ opName := sl "ExportMeshCount", events := 3, timeMs := 0 }]

def w6Export : NavExport :=
  { dataModel := sl "m", meshExport := 3, lineExport := 0, pointExport := 0,
    totalElements := 3, milliseconds := 0, minutes := 0, elementPerMin := 0 }

theorem C6_witness :
    w6Export.minutes = round2 ((w6Export.milliseconds : ℚ) / 60000)
    ∧ w6Export.elementPerMin =
        (if w6Export.minutes = 0 then 0
         else round2 ((w6Export.totalElements : ℚ) / w6Export.minutes))
    ∧ 0 ≤ w6Export.elementPerMin :=
  C6_rate_from_rounded_minutes.2.2.1 (sl "m") w6Rows w6Export (by decide)

-- ===== Claim C10 =====

/-- Claim C10: a Navisworks file returns an export row iff one of its
export counters is strictly positive, and a read row iff one of its read
counters is strictly positive; both can be returned for one file, and a
file whose counters for a phase are all zero returns no row for that
phase even when that phase's timing row is present. -/
theorem C10_nav_row_iff_positive_counter (name : Str) (rows : List Row) :
    ((navSingle name rows).1.isSome = true ↔
      (0 < catTotal navCreateMap (sl "Mesh_Export") rows
       ∨ 0 < catTotal navCreateMap (sl "Line_Export") rows
       ∨ 0 < catTotal navCreateMap (sl "Point_Export") rows))
    ∧ ((navSingle name rows).2.isSome = true ↔
      (0 < catTotal navReadMap (sl "Brep_Read") rows
       ∨ 0 < catTotal navReadMap (sl "Mesh_Read") rows
       ∨ 0 < catTotal navReadMap (sl "Primitive_Read") rows)) := by
  unfold navSingle
  dsimp only
  constructor
  · split <;> simp_all
  · split <;> simp_all

/-- Concrete Navisworks frame carrying positive counters for both phases
and the create timing row: both rows are returned for this single file. -/
def w10Rows : List Row :=
  [ { opName := sl "ExportMeshCount", events := 3, timeMs := 0 },
    { opName := sl "ReadBrepCount", events := 4, timeMs := 0 },
    { opName := sl "UpdateExchangeAsync:TotalTimeToCreateExchange", events := 0, timeMs := 60000 } ]

theorem C10_witness :
    ((navSingle (sl "m") w10Rows).1.isSome = true ↔
      (0 < catTotal navCreateMap (sl "Mesh_Export") w10Rows
       ∨ 0 < catTotal navCreateMap (sl "Line_Export") w10Rows
       ∨ 0 < catTotal navCreateMap (sl "Point_Export") w10Rows))
    ∧ ((navSingle (sl "m") w10Rows).2.isSome = true ↔
      (0 < catTotal navReadMap (sl "Brep_Read") w10Rows
       ∨ 0 < catTotal navReadMap (sl "Mesh_Read") w10Rows
       ∨ 0 < catTotal navReadMap (sl "Primitive_Read") w10Rows)) :=
  C10_nav_row_iff_positive_counter (sl "m") w10Rows

-- ===== Tekla JSON processor (Data Extractor - Copy/tekla_processor.py) =====

/-- One entry of the document's `Errors` array (`Message`, `MethodName`;
`none` models an absent key). -/
structure ErrorEntry where
  message : Option Str
  methodName : Option Str
  deriving DecidableEq

/-- The `ElementCounts` map of one exchange.  The source reads each key
with `.get(key, 0)`, so an absent key is modelled by the value `0`. -/
structure ElementCounts where
  brep : Nat
  curveSet : Nat
  totalElements : Nat
  deriving DecidableEq

/-- One entry of `Context.Exchanges`.  `elementCounts = none` models a
missing or empty (falsy) `ElementCounts` dict. -/
structure Exchange where
  exchangeName : Option Str
  elementCounts : Option ElementCounts
  deriving DecidableEq

/-- One entry of `PerformanceMetrics`. -/
structure Metric where
  operationName : Str
  events : Nat
  elapsedMs : Nat
  deriving DecidableEq

/-- A parsed tree-shaped (JSON) document. -/
structure JsonDoc where
  status : Option Str
  errors : List ErrorEntry
  operationType : Option Str
  performanceMetrics : List Metric
  exchanges : List Exchange
  fileName : Str
  deriving DecidableEq

/-- `data.get("Status", "")` -/
def statusStr (d : JsonDoc) : Str := d.status.getD []

/-- `data.get("OperationType", "")` -/
def opTypeStr (d : JsonDoc) : Str := d.operationType.getD []

/-- `os.path.splitext(name)[0]`: drop the last dot-extension.  (The
CPython special case for a leading-dot hidden file is not modelled; no
claim depends on model names.) -/
def stripExt (s : Str) : Str :=
  let revTail := s.reverse.takeWhile (· ≠ '.')
  if revTail.length = s.length then s
  else (s.reverse.drop (revTail.length + 1)).reverse

/-- `extract_model_name_from_json`: first non-empty `ExchangeName` of
`Context.Exchanges`, else the filename stem. -/
def extractModelNameJson (d : JsonDoc) : Str :=
  match d.exchanges.find? (fun ex =>
      match ex.exchangeName with
      | some n => !n.isEmpty
      | none => false) with
  | some ex => ex.exchangeName.getD []
  | none => stripExt d.fileName

/-- One row produced by the JSON flavour of the Tekla processor (the
error columns and the transient `Operation_Type` marker included). -/
structure TeklaJsonRow where
  dataModel : Str
  status : Option Str
  errorDetails : Option Str
  mesh : Nat
  ifc : Nat
  primitives : Nat
  totalElements : Nat
  milliseconds : Nat
  minutes : ℚ
  elementPerMin : ℚ
  operationType : Option Str
  deriving DecidableEq

/-- Per-metric category totals (same classification as the CSV flavour,
applied to `PerformanceMetrics` entries). -/
def metricCatTotal (table : List (Str × Str)) (cat : Str) (ms : List Metric) : Nat :=
  ((ms.filter fun m => classifyOp m.operationName table = some cat).map Metric.events).sum

/-- `summary["milliseconds"] += int(timing_ms)` summed over the metrics
whose `OperationName` equals the phase's time operation. -/
def jsonTimeSum (timeOp : Str) (ms : List Metric) : Nat :=
  ((ms.filter fun m => m.operationName = timeOp).map Metric.elapsedMs).sum

/-- The loop over `Context.Exchanges` (source lines 137–149): running
`(IFC, Primitives, total_elements)` state; `BRep` is added to `IFC`,
`CurveSet` to `Primitives`, and the exchange's `TotalElements` replaces
the running total only when strictly greater. -/
def foldExchanges : List Exchange → Nat × Nat × Nat → Nat × Nat × Nat
  | [], acc => acc
  | ex :: rest, (ifc, prim, tot) =>
    match ex.elementCounts with
    | none => foldExchanges rest (ifc, prim, tot)
    | some ec =>
      foldExchanges rest
        (ifc + ec.brep, prim + ec.curveSet,
         if tot < ec.totalElements then ec.totalElements else tot)

/-- The authoritative grand total the exchange loop converges to when
started from `0`. -/
def authTotal (d : JsonDoc) : Nat := (foldExchanges d.exchanges (0, 0, 0)).2.2

/-- The formatting of one `Errors` entry (source lines 69–75):
`"Method: Message"` when a non-empty `MethodName` is present, else the
message alone; a missing `Message` reads `"Unknown error"`. -/
def fmtErrEntry (e : ErrorEntry) : Str :=
  let msg := e.message.getD (sl "Unknown error")
  let meth := e.methodName.getD []
  if meth.isEmpty then msg else meth ++ sl ": " ++ msg

/-- The successful-extraction part of the JSON `process_single_file`
(lines 94–168), once the phase's map, time operation and label are fixed. -/
def buildJsonSummary (name : Str) (opMap : List (Str × Str)) (timeOp : Str)
    (phase : Str) (d : JsonDoc) : TeklaJsonRow :=
  let mesh := metricCatTotal opMap (sl "Mesh") d.performanceMetrics
  let ifc0 := metricCatTotal opMap (sl "IFC") d.performanceMetrics
  let prim0 := metricCatTotal opMap (sl "Primitives") d.performanceMetrics
  let acc := foldExchanges d.exchanges (ifc0, prim0, 0)
  let ifc := acc.1
  let prim := acc.2.1
  let tot0 := acc.2.2
  let totalElements := if tot0 = 0 then mesh + ifc + prim else tot0
  let ms := jsonTimeSum timeOp d.performanceMetrics
  if 0 < ms then
    let minutes := round2 ((ms : ℚ) / 60000)
    { dataModel := name, status := none, errorDetails := none,
      mesh := mesh, ifc := ifc, primitives := prim,
      totalElements := totalElements, milliseconds := ms, minutes := minutes,
      elementPerMin := calcElementsPerMin (totalElements : ℚ) minutes,
      operationType := some phase }
  else
    { dataModel := name, status := none, errorDetails := none,
      mesh := mesh, ifc := ifc, primitives := prim,
      totalElements := totalElements, milliseconds := ms, minutes := 0,
      elementPerMin := 0, operationType := some phase }

/-- The JSON `process_single_file`: failure status short-circuits into an
error row; an empty `PerformanceMetrics` array returns the all-zero
summary; the document-level `OperationType` gates the phase by exact
string match (`CreateExchange` / `LoadExchange`; the per-phase maps and
time operations of this module are textually identical to the CSV
module's `teklaCreateMap`/`teklaReadMap`/`teklaTotalTimeOp`/
`teklaReadTimeOp`, which are reused here); any other value returns
`None`. -/
def processJsonSingle (d : JsonDoc) : Option TeklaJsonRow :=
  let modelName := extractModelNameJson d
  if statusStr d = sl "CompletedWithErrors" then
    let errorSummary := d.errors.map fmtErrEntry
    let errorSummary2 :=
      if errorSummary.isEmpty
      then [sl "Processing completed with errors (no details available)"]
      else errorSummary
    some { dataModel := modelName, status := some (sl "ERROR"),
           errorDetails := some (joinSemi (errorSummary2.take 3)),
           mesh := 0, ifc := 0, primitives := 0, totalElements := 0,
           milliseconds := 0, minutes := 0, elementPerMin := 0,
           operationType := none }
  else if d.performanceMetrics.isEmpty then
    some { dataModel := modelName, status := none, errorDetails := none,
           mesh := 0, ifc := 0, primitives := 0, totalElements := 0,
           milliseconds := 0, minutes := 0, elementPerMin := 0,
           operationType := none }
  else if opTypeStr d = sl "CreateExchange" then
    some (buildJsonSummary modelName teklaCreateMap teklaTotalTimeOp (sl "Create") d)
  else if opTypeStr d = sl "LoadExchange" then
    some (buildJsonSummary modelName teklaReadMap teklaReadTimeOp (sl "Load") d)
  else
    none

/-- `{k: v for k, v in result.items() if k != "Operation_Type"}` -/
def stripOpType (r : TeklaJsonRow) : TeklaJsonRow := { r with operationType := none }

/-- The routing of one document's result inside `process_tekla_json_files`
(lines 201–215): error rows go to the error list, `Create`/`Load` rows to
their tables, anything else is dropped. -/
def contribJson (d : JsonDoc) :
    List TeklaJsonRow × List TeklaJsonRow × List TeklaJsonRow :=
  match processJsonSingle d with
  | none => ([], [], [])
  | some r =>
    if r.status = some (sl "ERROR") then ([], [], [stripOpType r])
    else if r.operationType = some (sl "Create") then ([stripOpType r], [], [])
    else if r.operationType = some (sl "Load") then ([], [stripOpType r], [])
    else ([], [], [])

-- ===== Claims C2 / C3 / C4 =====

theorem foldExchanges_tot (exs : List Exchange) (i p i' p' t : Nat) :
    (foldExchanges exs (i, p, t)).2.2 = (foldExchanges exs (i', p', t)).2.2 := by
  induction exs generalizing i p i' p' t with
  | nil => rfl
  | cons ex rest ih =>
    cases hec : ex.elementCounts with
    | none => simpa [foldExchanges, hec] using ih i p i' p' t
    | some ec => simpa [foldExchanges, hec] using ih _ _ _ _ _

theorem buildJsonSummary_total (name : Str) (opMap : List (Str × Str))
    (timeOp phase : Str) (d : JsonDoc) :
    (buildJsonSummary name opMap timeOp phase d).totalElements =
      (if authTotal d = 0
       then (buildJsonSummary name opMap timeOp phase d).mesh
          + (buildJsonSummary name opMap timeOp phase d).ifc
          + (buildJsonSummary name opMap timeOp phase d).primitives
       else authTotal d) := by
  unfold buildJsonSummary authTotal
  dsimp only
  rw [foldExchanges_tot d.exchanges
    (metricCatTotal opMap (sl "IFC") d.performanceMetrics)
    (metricCatTotal opMap (sl "Primitives") d.performanceMetrics) 0 0 0]
  split <;> rfl

/-- The claim C2's consequence on the code: every row's total is at least
the sum of its category fields. -/
def claimC2Prop : Prop := ∀ (d : JsonDoc) (r : TeklaJsonRow),
  processJsonSingle d = some r →
  r.mesh + r.ifc + r.primitives ≤ r.totalElements

/-- Document with 100 classified `CreateMeshGeometry` events but an
authoritative `TotalElements` of only 5. -/
def c2Doc : JsonDoc :=
  { status := none, errors := [],
    operationType := some (sl "CreateExchange"),
    performanceMetrics := [{ operationName := sl "CreateMeshGeometry",
                             events := 100, elapsedMs := 0 }],
    exchanges := [{ exchangeName := none,
                    elementCounts := some { brep := 0, curveSet := 0,
                                            totalElements := 5 } }],
    fileName := sl "m.json" }

/-- The row the code produces for `c2Doc`. -/
def c2Row : TeklaJsonRow :=
  { dataModel := sl "m", status := none, errorDetails := none,
    mesh := 100, ifc := 0, primitives := 0, totalElements := 5,
    milliseconds := 0, minutes := 0, elementPerMin := 0,
    operationType := some (sl "Create") }

/-- Claim C2 is false on the code: for `c2Doc` the authoritative grand
total `5` replaces the locally summed `100` even though it does not
exceed it, so `totalElements = 5 < 100 = mesh + ifc + primitives`. -/
theorem C2_counterexample : ¬ claimC2Prop := by
  intro h
  exact absurd (h c2Doc c2Row (by decide)) (by decide)

/-- Claim C2 (amended): in the tree-shaped processor the authoritative
grand total (the exchange-loop maximum, started from `0`) replaces the
locally summed total whenever it is positive — even when it is smaller
than the category sum; the category sum is used only when no positive
authoritative total exists (and a document without performance metrics
reports zero).  In the tabular Tekla processor every row's
`total_elements` is exactly the sum of its category fields. -/
theorem C2_total_vs_category_sum :
    (∀ (d : JsonDoc) (r : TeklaJsonRow), processJsonSingle d = some r →
       r.status = none →
       r.totalElements =
         (if d.performanceMetrics.isEmpty then 0
          else if authTotal d = 0 then r.mesh + r.ifc + r.primitives
          else authTotal d))
    ∧ (∀ (sc sr : Bool) (name : Str) (rows : List Row),
       (teklaFileSummary sc sr name rows).totalElements =
         (teklaFileSummary sc sr name rows).mesh
         + (teklaFileSummary sc sr name rows).ifc
         + (teklaFileSummary sc sr name rows).primitives) := by
  constructor
  · intro d r h hs
    unfold processJsonSingle at h
    by_cases h1 : statusStr d = sl "CompletedWithErrors"
    · rw [if_pos h1] at h
      cases h
      cases hs
    · rw [if_neg h1] at h
      by_cases h2 : d.performanceMetrics.isEmpty
      · rw [if_pos h2] at h
        cases h
        simp [h2]
      · rw [if_neg h2] at h
        rw [if_neg (by exact h2 : ¬d.performanceMetrics.isEmpty = true)]
        by_cases h3 : opTypeStr d = sl "CreateExchange"
        · rw [if_pos h3] at h
          cases h
          exact buildJsonSummary_total _ _ _ _ d
        · rw [if_neg h3] at h
          by_cases h4 : opTypeStr d = sl "LoadExchange"
          · rw [if_pos h4] at h
            cases h
            exact buildJsonSummary_total _ _ _ _ d
          · rw [if_neg h4] at h
            cases h
  · intro sc sr name rows
    rfl

theorem C2_witness :
    c2Row.totalElements =
      (if c2Doc.performanceMetrics.isEmpty then 0
       else if authTotal c2Doc = 0 then c2Row.mesh + c2Row.ifc + c2Row.primitives
       else authTotal c2Doc) :=
  C2_total_vs_category_sum.1 c2Doc c2Row (by decide) (by decide)

/-- Claim C3: a tree-shaped document whose `OperationType` is anything
other than exactly `CreateExchange` or `LoadExchange` and that carries no
failure status contributes no row at all to the batch — not to the create
table, not to the load table, not to the error list — and raises no
error (the embedding is a total function). -/
theorem C3_unknown_operation_type_skipped (d : JsonDoc)
    (h1 : opTypeStr d ≠ sl "CreateExchange")
    (h2 : opTypeStr d ≠ sl "LoadExchange")
    (h3 : statusStr d ≠ sl "CompletedWithErrors") :
    contribJson d = ([], [], []) := by
  unfold contribJson processJsonSingle
  rw [if_neg h3]
  by_cases hpm : d.performanceMetrics.isEmpty
  · rw [if_pos hpm]
    simp
  · rw [if_neg hpm, if_neg h1, if_neg h2]

/-- The spec's own example: `OperationType = "LoadLatestExchange"` (which
merely starts with `Load`), no failure status, non-empty metrics. -/
def c3Doc : JsonDoc :=
  { status := none, errors := [],
    operationType := some (sl "LoadLatestExchange"),
    performanceMetrics := [{ operationName := sl "LoadMeshInTekla",
                             events := 3, elapsedMs := 10 }],
    exchanges := [], fileName := sl "x.json" }

theorem C3_witness : contribJson c3Doc = ([], [], []) :=
  C3_unknown_operation_type_skipped c3Doc (by decide) (by decide) (by decide)

/-- The claim C4's reading of the error branch: the error-details field is
the document's error **messages used verbatim**, truncated to the first 3
and joined with `"; "`, with the generic message substituted for an empty
error list. -/
def claimC4Prop : Prop := ∀ d : JsonDoc,
  statusStr d = sl "CompletedWithErrors" →
  ∀ r : TeklaJsonRow, processJsonSingle d = some r →
  r.errorDetails = some (joinSemi
    ((if d.errors.isEmpty
      then [sl "Processing completed with errors (no details available)"]
      else d.errors.map (fun e => e.message.getD (sl "Unknown error"))).take 3))

/-- A failing document whose single error entry carries a method name. -/
def c4Doc : JsonDoc :=
  { status := some (sl "CompletedWithErrors"),
    errors := [{ message := some (sl "X"), methodName := some (sl "M") }],
    operationType := none, performanceMetrics := [], exchanges := [],
    fileName := sl "e.json" }

/-- The row the code produces for `c4Doc`: the method name is prefixed,
so the details read `"M: X"`, not the verbatim message `"X"`. -/
def c4Row : TeklaJsonRow :=
  { dataModel := sl "e", status := some (sl "ERROR"),
    errorDetails := some (sl "M: X"),
    mesh := 0, ifc := 0, primitives := 0, totalElements := 0,
    milliseconds := 0, minutes := 0, elementPerMin := 0,
    operationType := none }

/-- Claim C4 is false on the code: when an error entry carries a non-empty
`MethodName`, the entry is rendered as `"Method: Message"`, not as the
verbatim message. -/
theorem C4_counterexample : ¬ claimC4Prop := by
  intro h
  exact absurd (h c4Doc (by decide) c4Row (by decide)) (by decide)

/-- Claim C4 (amended): a document whose status is the failure sentinel
yields exactly one ErrorRecord and no ModelSummary; its error-details
field renders each of the first 3 error entries as the verbatim message
when no method name is present and as `"MethodName: Message"` otherwise,
joined with `"; "`, with the single generic completed-with-errors message
substituted when the error list is empty; every numeric field is zero
(no category classification is performed), and the batch routes the row
to the error list only. -/
theorem C4_failure_status_error_record (d : JsonDoc)
    (h : statusStr d = sl "CompletedWithErrors") :
    ∃ r : TeklaJsonRow, processJsonSingle d = some r
      ∧ r.status = some (sl "ERROR")
      ∧ r.errorDetails = some (joinSemi
          ((if d.errors.isEmpty
            then [sl "Processing completed with errors (no details available)"]
            else d.errors.map fmtErrEntry).take 3))
      ∧ r.mesh = 0 ∧ r.ifc = 0 ∧ r.primitives = 0 ∧ r.totalElements = 0
      ∧ r.milliseconds = 0 ∧ r.minutes = 0 ∧ r.elementPerMin = 0
      ∧ contribJson d = ([], [], [stripOpType r]) := by
  have hmapEmpty : (d.errors.map fmtErrEntry).isEmpty = d.errors.isEmpty := by
    cases d.errors <;> rfl
  have hr : processJsonSingle d = some
      { dataModel := extractModelNameJson d, status := some (sl "ERROR"),
        errorDetails := some (joinSemi
          ((if d.errors.isEmpty
            then [sl "Processing completed with errors (no details available)"]
            else d.errors.map fmtErrEntry).take 3)),
        mesh := 0, ifc := 0, primitives := 0, totalElements := 0,
        milliseconds := 0, minutes := 0, elementPerMin := 0,
        operationType := none } := by
    unfold processJsonSingle
    rw [if_pos h]
    dsimp only
    rw [hmapEmpty]
  refine ⟨_, hr, rfl, rfl, rfl, rfl, rfl, rfl, rfl, rfl, rfl, ?_⟩
  unfold contribJson
  rw [hr]
  simp

/-- The spec's example: `Status="CompletedWithErrors"`,
`Errors=[{Message:"X"}]` (no method name). -/
def w4Doc : JsonDoc :=
  { status := some (sl "CompletedWithErrors"),
    errors := [{ message := some (sl "X"), methodName := none }],
    operationType := none, performanceMetrics := [], exchanges := [],
    fileName := sl "w.json" }

theorem C4_witness :
    ∃ r : TeklaJsonRow, processJsonSingle w4Doc = some r
      ∧ r.status = some (sl "ERROR")
      ∧ r.errorDetails = some (joinSemi
          ((if w4Doc.errors.isEmpty
            then [sl "Processing completed with errors (no details available)"]
            else w4Doc.errors.map fmtErrEntry).take 3))
      ∧ r.mesh = 0 ∧ r.ifc = 0 ∧ r.primitives = 0 ∧ r.totalElements = 0
      ∧ r.milliseconds = 0 ∧ r.minutes = 0 ∧ r.elementPerMin = 0
      ∧ contribJson w4Doc = ([], [], [stripOpType r]) :=
  C4_failure_status_error_record w4Doc (by decide)

-- ===== Claim C5 =====

/-- Claim C5: on every table whose patterns are pairwise distinct (a
Python dict invariant), the classifier returns `none` exactly when no
pattern is a substring of the operation id, and returns `some c` exactly
when the table splits as `l₁ ++ p :: l₂` with `p` the **first** pattern
(in definition order) contained in the id and `c` its display category —
so an id containing several patterns is classified by the earliest one. -/
theorem C5_first_substring_match (op : Str) (table : List (Str × Str))
    (hnd : (table.map Prod.fst).Nodup) :
    (classifyOp op table = none ↔ ∀ p ∈ table, strIn p.1 op = false)
    ∧ ∀ c : Str, classifyOp op table = some c ↔
        ∃ l₁ p l₂, table = l₁ ++ p :: l₂ ∧ strIn p.1 op = true ∧ p.2 = c
          ∧ ∀ q ∈ l₁, strIn q.1 op = false := by
  induction table with
  | nil =>
    constructor
    · simp [classifyOp, matchOperation]
    · intro c
      constructor
      · intro h
        simp [classifyOp, matchOperation] at h
      · rintro ⟨l₁, p, l₂, hsplit, -⟩
        exact absurd hsplit.symm (by simp)
  | cons hd t ih =>
    obtain ⟨k, v⟩ := hd
    rw [List.map_cons, List.nodup_cons] at hnd
    obtain ⟨hknot, hnd'⟩ := hnd
    obtain ⟨ih1, ih2⟩ := ih hnd'
    by_cases hk : strIn k op
    · have hclass : classifyOp op ((k, v) :: t) = some v := by
        simp [classifyOp, matchOperation, hk, dictGet]
      constructor
      · rw [hclass]
        constructor
        · intro h
          cases h
        · intro hall
          have := hall (k, v) (List.mem_cons_self _ _)
          rw [hk] at this
          cases this
      · intro c
        rw [hclass]
        constructor
        · intro h
          have hvc : v = c := by injection h
          exact ⟨[], (k, v), t, rfl, hk, hvc, by simp⟩
        · rintro ⟨l₁, p, l₂, hsplit, hp, hpc, hprev⟩
          cases l₁ with
          | nil =>
            have hh : (k, v) = p := by injection hsplit with hh ht
            rw [← hh] at hpc
            exact congrArg some hpc
          | cons q l₁' =>
            have hq : q = (k, v) := by
              have := congrArg (fun l => l.headD (k, v)) hsplit
              simpa using this.symm
            have hfalse := hprev q (List.mem_cons_self _ _)
            rw [hq] at hfalse
            rw [hk] at hfalse
            cases hfalse
    · have hkf : strIn k op = false := by
        cases hsk : strIn k op
        · rfl
        · exact absurd hsk hk
      have hclass : classifyOp op ((k, v) :: t) = classifyOp op t := by
        unfold classifyOp
        rw [show matchOperation op ((k, v) :: t) = matchOperation op t by
          simp [matchOperation, hkf]]
        cases hmt : matchOperation op t with
        | none => rfl
        | some k' =>
          have hk'mem := matchOperation_mem hmt
          have hne : k ≠ k' := fun he => hknot (he ▸ hk'mem)
          exact dictGet_cons_ne hne
      constructor
      · rw [hclass, ih1]
        constructor
        · intro hall q hq
          rcases List.mem_cons.mp hq with rfl | hq'
          · exact hkf
          · exact hall q hq'
        · intro hall q hq
          exact hall q (List.mem_cons_of_mem _ hq)
      · intro c
        rw [hclass, ih2 c]
        constructor
        · rintro ⟨l₁, p, l₂, hsplit, hp, hpc, hprev⟩
          refine ⟨(k, v) :: l₁, p, l₂, by rw [hsplit]; rfl, hp, hpc, ?_⟩
          intro q hq
          rcases List.mem_cons.mp hq with rfl | hq'
          · exact hkf
          · exact hprev q hq'
        · rintro ⟨l₁, p, l₂, hsplit, hp, hpc, hprev⟩
          cases l₁ with
          | nil =>
            have hh : (k, v) = p := by injection hsplit with hh ht
            rw [← hh] at hp
            rw [hkf] at hp
            cases hp
          | cons q l₁' =>
            have hq : q = (k, v) := by
              have := congrArg (fun l => l.headD (k, v)) hsplit
              simpa using this.symm
            have ht : t = l₁' ++ p :: l₂ := by
              have := congrArg List.tail hsplit
              simpa using this
            exact ⟨l₁', p, l₂, ht, hp, hpc,
              fun q' hq' => hprev q' (List.mem_cons_of_mem _ hq')⟩

theorem C5_witness :
    (classifyOp (sl "PrefixLoadMeshInTeklaAndLoadPrimitivesInTekla") teklaReadMap = none
      ↔ ∀ p ∈ teklaReadMap,
          strIn p.1 (sl "PrefixLoadMeshInTeklaAndLoadPrimitivesInTekla") = false)
    ∧ ∀ c : Str,
        classifyOp (sl "PrefixLoadMeshInTeklaAndLoadPrimitivesInTekla") teklaReadMap = some c ↔
        ∃ l₁ p l₂, teklaReadMap = l₁ ++ p :: l₂
          ∧ strIn p.1 (sl "PrefixLoadMeshInTeklaAndLoadPrimitivesInTekla") = true
          ∧ p.2 = c
          ∧ ∀ q ∈ l₁, strIn q.1 (sl "PrefixLoadMeshInTeklaAndLoadPrimitivesInTekla") = false :=
  C5_first_substring_match (sl "PrefixLoadMeshInTeklaAndLoadPrimitivesInTekla") teklaReadMap
    (by decide)
